import Mathlib

/-!
Verification of the omegga-select command language: a shallow embedding of
the lexer (src/lex.ts), the unit/axis resolvers and the interpreter core
(src/interpret/index.ts), and the filter/transform registry
(src/interpret function catalog).

Machine numbers are modelled as rationals; character scanning is modelled
over `List Char` with an explicit column index, and the recursive-descent
entry points carry a fuel argument so that every definition is a total,
kernel-computable function.
-/

namespace Select

/-! ## Kernel-computable rational arithmetic

The library implementations of rational addition, multiplication and
division are marked irreducible, which blocks `decide`/`rfl` evaluation of
the embedded program on concrete inputs. The embedding therefore uses the
wrappers below, built on the reducible `Rat.divInt`; each is proved equal
to the corresponding library operator, so symbolic proofs can switch to
the standard operators. -/

def qAdd (a b : ℚ) : ℚ := Rat.divInt (a.num * b.den + b.num * a.den) (a.den * b.den)

def qMul (a b : ℚ) : ℚ := Rat.divInt (a.num * b.num) (a.den * b.den)

def qSub (a b : ℚ) : ℚ := qAdd a (-b)

def qDiv (a b : ℚ) : ℚ := Rat.divInt (a.num * b.den) (a.den * b.num)

/-- Character class of the JS regex `\s` (ASCII whitespace as used by the lexer). -/
def isWS (c : Char) : Bool := c = ' ' || c = '\t' || c = '\n' || c = '\r'

/-- The single-quote character, written by code to avoid a quote literal. -/
def squote : Char := Char.ofNat 39

/-- Character class of the JS regex `[\w?!]` used for identifier continuation. -/
def isIdentChar (c : Char) : Bool := c.isAlphanum || c = '_' || c = '?' || c = '!'

/-- Character class of the JS regex `\w`. -/
def isJsWordChar (c : Char) : Bool := c.isAlphanum || c = '_'

/-- `listStartsWith l p` is true when `p` is an initial segment of `l`. -/
def listStartsWith : List Char → List Char → Bool
  | _, [] => true
  | [], _ :: _ => false
  | c :: t, p :: ps => c = p && listStartsWith t ps

/-- JS `String.prototype.includes` on character lists. -/
def listContainsSeq : List Char → List Char → Bool
  | hay, needle =>
    match hay with
    | [] => needle.isEmpty
    | _ :: t => listStartsWith hay needle || listContainsSeq t needle

/-- JS `String.prototype.trim` (both ends). -/
def trimChars (cs : List Char) : List Char :=
  ((cs.dropWhile isWS).reverse.dropWhile isWS).reverse

/-- JS `toLowerCase` on the ASCII names this language uses (the library
`String.toLower` is not kernel-computable; this list-based equivalent is). -/
def strToLower (s : String) : String := String.mk (s.data.map Char.toLower)

/-! ## Value model (src/lex.ts) -/

/-- The tagged value grammar of src/lex.ts: `ValueBoolean`, `ValueNumber`,
`ValueString`, `ValueRange`, `ValueFunc`. Optional TS fields become `Option`. -/
inductive Value where
  | boolean (value : Bool)
  | number (value : ℚ) (units : Option String)
  | string (value : String)
  | range (min max : Option ℚ) (minUnits maxUnits : Option String)
      (minEx maxEx : Option Bool)
  | func (name : String) (args : List Value)

/-- `Func` of src/lex.ts: one parsed filter or transform call. -/
structure Func where
  name : String
  args : List Value

/-- `ParseError` of src/lex.ts: input text, column, message. -/
structure ParseError where
  data : List Char
  col : Nat
  message : String
deriving DecidableEq

/-- `Op` of src/lex.ts. -/
inductive Op where
  | Replace
  | Copy
  | Delete
  | Count
  | Extract
deriving DecidableEq

/-- `ParseResult` of src/lex.ts. -/
structure ParseResult where
  all : Bool
  op : Op
  filters : List Func
  transforms : List Func

/-- `getOp` of src/lex.ts: operation keywords. -/
def getOp (name : String) : Option Op :=
  match strToLower name with
  | "replace" => some .Replace
  | "set" => some .Replace
  | "copy" => some .Copy
  | "cp" => some .Copy
  | "delete" => some .Delete
  | "remove" => some .Delete
  | "count" => some .Count
  | "extract" => some .Extract
  | "separate" => some .Extract
  | "split" => some .Extract
  | _ => none

/-- `BOOLEAN_KEYWORDS` of src/lex.ts. -/
def boolKeyword (s : String) : Option Bool :=
  match s with
  | "on" => some true
  | "yes" => some true
  | "true" => some true
  | "off" => some false
  | "no" => some false
  | "false" => some false
  | _ => none

/-! ## Character scanners (the simple `while` loops of the Lexer class) -/

/-- End-of-input test `eof` of the Lexer. -/
def eofb (d : List Char) (col : Nat) : Bool := decide (col ≥ d.length)

/-- `readWhitespace`: advance the column over whitespace. -/
def readWhitespaceCol (d : List Char) (col : Nat) : Nat :=
  col + ((d.drop col).takeWhile isWS).length

/-- `readConstant` with a single-character match. On mismatch (including
end of input, where the indexed character is JS `undefined`) it raises
the `expected <c>` error. -/
def readConstantChar (d : List Char) (col : Nat) (c : Char) : Except ParseError Nat :=
  if d.get? col = some c then .ok (col + 1)
  else .error ⟨d, col, "expected " ++ c.toString⟩

/-- `readConstant` with a character-class match (message `unexpected character`). -/
def readConstantPred (d : List Char) (col : Nat) (p : Char → Bool) : Except ParseError Nat :=
  match d.get? col with
  | some c => if p c then .ok (col + 1) else .error ⟨d, col, "unexpected character"⟩
  | none => .error ⟨d, col, "unexpected character"⟩

/-- `readOneWhitespace`: at least one whitespace character, then any more. -/
def readOneWhitespace (d : List Char) (col : Nat) : Except ParseError Nat :=
  match readConstantPred d col isWS with
  | .error e => .error e
  | .ok c1 => .ok (readWhitespaceCol d c1)

/-- `readIdentifier`: an alphabetic character followed by `[\w?!]*`. -/
def readIdentifier (d : List Char) (col : Nat) : Except ParseError (String × Nat) :=
  match d.get? col with
  | some c =>
    if c.isAlpha then
      let rest := (d.drop (col + 1)).takeWhile isIdentChar
      .ok (String.mk (c :: rest), col + 1 + rest.length)
    else .error ⟨d, col, "expected an identifier, starting with an alphabet character"⟩
  | none => .error ⟨d, col, "expected an identifier, starting with an alphabet character"⟩

/-- JS `Number(buf)` on the digit/dot/minus strings the number branch of
`readValue` can accumulate: `none` is `NaN`. Valid iff the characters after
an optional leading minus are digits with at most one dot and at least one
digit. -/
def jsNumber (cs : List Char) : Option ℚ :=
  let body := match cs with
    | c :: t => if c = '-' then t else cs
    | [] => cs
  let neg : Bool := match cs with
    | c :: _ => c = '-'
    | [] => false
  if body.any (fun c => ¬(c.isDigit || c = '.')) then none
  else if ¬ body.any Char.isDigit then none
  else if (body.filter (fun c => c = '.')).length ≥ 2 then none
  else
    let intPart := body.takeWhile (fun c => c ≠ '.')
    let fracPart := (body.dropWhile (fun c => c ≠ '.')).drop 1
    let intVal : Nat := intPart.foldl (fun a c => a * 10 + (c.toNat - 48)) 0
    let fracVal : Nat := fracPart.foldl (fun a c => a * 10 + (c.toNat - 48)) 0
    let q : ℚ := mkRat (intVal * 10 ^ fracPart.length + fracVal) (10 ^ fracPart.length)
    some (if neg then -q else q)

/-- The quoted-string loop of `readValue`, faithfully including the
`!escape` in the loop condition: the scan stops as soon as a backslash sets
the escape flag. Returns the buffer, the number of characters consumed
inside the quotes, and whether the loop left the cursor at end of input. -/
def scanString (q : Char) : List Char → List Char × Nat × Bool
  | [] => ([], 0, true)
  | c :: t =>
    if c = q then ([], 0, false)
    else if c = '\\' then ([], 1, t.isEmpty)
    else
      let (buf, n, e) := scanString q t
      (c :: buf, n + 1, e)

/-! ## readValue / readFunction (mutual recursive descent, fuel-indexed) -/

mutual

/-- `readValue` of src/lex.ts. The branch order follows the source: number,
quoted string, identifier (speculative function call, then bare word /
boolean keyword), one-ended range, and the `unknown value` fallback. -/
def readValue : Nat → List Char → Nat → Except ParseError (Value × Nat)
  | 0, d, col => .error ⟨d, col, "out of fuel"⟩
  | fuel + 1, d, col =>
    match d.get? col with
    | none => .error ⟨d, col, "unknown value"⟩
    | some c =>
      if c.isDigit || c = '-' then
        -- a number
        let rest := (d.drop (col + 1)).takeWhile (fun ch => ch.isDigit || ch = '.')
        let buf := c :: rest
        let c1 := col + 1 + rest.length
        match jsNumber buf with
        | none => .error ⟨d, col, "invalid number"⟩
        | some value =>
          -- optional: whitespace then an identifier as the units suffix
          let wcol := readWhitespaceCol d c1
          match readIdentifier d wcol with
          | .ok (id, c2) => .ok (.number value (some id), c2)
          | .error _ => .ok (.number value none, c1)
      else if c = '"' || c = squote then
        -- a string, contained within quotes
        let (buf, n, atEof) := scanString c (d.drop (col + 1))
        if atEof then .error ⟨d, col, "string never terminated"⟩
        else .ok (.string (String.mk buf), col + 1 + n + 1)
      else if c.isAlpha then
        -- a one-word string, which could be a function (parens required here)
        match readFunction fuel true d col with
        | .ok (f, c1) => .ok (.func f.name f.args, c1)
        | .error _ =>
          match readIdentifier d col with
          | .error e => .error e
          | .ok (id, c1) =>
            match boolKeyword (strToLower id) with
            | some b => .ok (.boolean b, c1)
            | none => .ok (.string id, c1)
      else if c = '<' || c = '>' then
        -- a one-ended range
        let (inclusive, c1) :=
          if d.get? (col + 1) = some '=' then (true, col + 2) else (false, col + 1)
        match readValue fuel d c1 with
        | .error e => .error e
        | .ok (v, c2) =>
          match v with
          | .number value units =>
            if c = '>' then
              .ok (.range (some value) none units none (some !inclusive) none, c2)
            else
              .ok (.range none (some value) none units none (some !inclusive), c2)
          | _ => .error ⟨d, c2, "expected a number in the range"⟩
      else .error ⟨d, col, "unknown value"⟩

/-- `readFunction` of src/lex.ts: identifier, then an optional
parenthesised argument list. -/
def readFunction : Nat → Bool → List Char → Nat → Except ParseError (Func × Nat)
  | 0, _, d, col => .error ⟨d, col, "out of fuel"⟩
  | fuel + 1, parensRequired, d, col =>
    match readIdentifier d col with
    | .error e => .error e
    | .ok (name, c1) =>
      -- optional: whitespace then an opening paren
      let wcol := readWhitespaceCol d c1
      match readConstantChar d wcol '(' with
      | .error _ =>
        if parensRequired then .error ⟨d, c1, "expected ("⟩
        else .ok (⟨name, []⟩, c1)
      | .ok c2 =>
        let c3 := readWhitespaceCol d c2
        match readArgs fuel d c3 [] false with
        | .error e => .error e
        | .ok (args, c4) => .ok (⟨name, args⟩, c4)

/-- The argument loop of `readFunction`, followed by the closing-paren
`readConstant`. -/
def readArgs : Nat → List Char → Nat → List Value → Bool → Except ParseError (List Value × Nat)
  | 0, d, col, _, _ => .error ⟨d, col, "out of fuel"⟩
  | fuel + 1, d, col, args, before =>
    if eofb d col || d.get? col = some ')' then
      match readConstantChar d col ')' with
      | .error e => .error e
      | .ok c1 => .ok (args, c1)
    else
      let step : Except ParseError Nat :=
        if before then
          match readConstantChar d col ',' with
          | .error _ => .error ⟨d, col, "expected , and another value"⟩
          | .ok c1 => .ok (readWhitespaceCol d c1)
        else .ok col
      match step with
      | .error e => .error e
      | .ok c2 =>
        match readValue fuel d c2 with
        | .error e => .error e
        | .ok (v, c3) => readArgs fuel d (readWhitespaceCol d c3) (args ++ [v]) true

end

/-! ## Top-level `parse` -/

/-- The lowercased `\w+` word at the cursor (the operation-keyword probe of
`parse`); empty when the character there is not a word character. -/
def wordAt (d : List Char) (col : Nat) : String :=
  String.mk (((d.drop col).takeWhile isJsWordChar).map Char.toLower)

/-- The filter-collection loop of `parse`: reads function calls until an
operation keyword or end of input. Returns the collected functions, the
operation if one was found, and the final column. -/
def readFilters : Nat → List Char → Nat → Except ParseError (List Func × Option Op × Nat)
  | 0, d, col => .error ⟨d, col, "out of fuel"⟩
  | fuel + 1, d, col =>
    if eofb d col then .ok ([], none, col)
    else
      let w := wordAt d col
      match if w = "" then none else getOp w with
      | some op =>
        match readIdentifier d col with
        | .error e => .error e
        | .ok (_, c1) =>
          if eofb d c1 then .ok ([], some op, c1)
          else
            match readOneWhitespace d c1 with
            | .error e => .error e
            | .ok c2 => .ok ([], some op, c2)
      | none =>
        match readFunction fuel false d col with
        | .error e => .error e
        | .ok (fn, c1) =>
          if eofb d c1 then .ok ([fn], none, c1)
          else
            match readOneWhitespace d c1 with
            | .error e => .error e
            | .ok c2 =>
              match readFilters fuel d c2 with
              | .error e => .error e
              | .ok (fs, op?, c3) => .ok (fn :: fs, op?, c3)

/-- The transform-collection loop of `parse` (after the operation keyword). -/
def readTransforms : Nat → List Char → Nat → Except ParseError (List Func × Nat)
  | 0, d, col => .error ⟨d, col, "out of fuel"⟩
  | fuel + 1, d, col =>
    if eofb d col then .ok ([], col)
    else
      match readFunction fuel false d col with
      | .error e => .error e
      | .ok (fn, c1) =>
        let c2 := readWhitespaceCol d c1
        if eofb d c2 then .ok ([fn], c2)
        else
          match readOneWhitespace d c1 with
          | .error e => .error e
          | .ok c3 =>
            match readTransforms fuel d c3 with
            | .error e => .error e
            | .ok (ts, c4) => .ok (fn :: ts, c4)

/-- The leading `all` keyword handling of `parse` (a plain
`startsWith` probe, then an identifier and whitespace). -/
def allFlag (d : List Char) : Except ParseError (Bool × Nat) :=
  if listStartsWith d ['a', 'l', 'l'] then
    match readIdentifier d 0 with
    | .error e => .error e
    | .ok (_, c1) => .ok (true, readWhitespaceCol d c1)
  else .ok (false, 0)

/-- `parse` after the `all` handling. When the filter loop ends with no
operation keyword found the loop invariant guarantees end of input
(`readFilters_none_eof` below), so the collected functions become the
transform list, the filter list is emptied and the operation defaults to
`Replace`; the transform loop would read nothing at end of input. -/
def parseAfterAll (fuel : Nat) (d : List Char) (all : Bool) (col : Nat) :
    Except ParseError ParseResult :=
  match readFilters fuel d col with
  | .error e => .error e
  | .ok (fs, none, _) => .ok ⟨all, Op.Replace, [], fs⟩
  | .ok (fs, some op, c) =>
    match readTransforms fuel d c with
    | .error e => .error e
    | .ok (ts, _) => .ok ⟨all, op, fs, ts⟩

/-- The `parse` entry point on trimmed input (the Lexer constructor trims). -/
def parseFuel (fuel : Nat) (d : List Char) : Except ParseError ParseResult :=
  match allFlag d with
  | .error e => .error e
  | .ok (all, col) => parseAfterAll fuel d all col

/-- Parse one command string. -/
def parseCommand (s : String) : Except ParseError ParseResult :=
  let d := trimChars s.data
  parseFuel (2 * d.length + 16) d

/-- Read a single value from a raw string (column 0). -/
def readValueStr (s : String) : Except ParseError (Value × Nat) :=
  readValue (2 * s.data.length + 16) s.data 0

/-! ## Record model (the BrickV10 fields touched by the core) -/

/-- One entry of `save.brick_owners`. -/
structure Owner where
  name : String
deriving DecidableEq

/-- The collision descriptor with independent flags. -/
structure Collision where
  player : Bool
  weapon : Bool
  interaction : Bool
  tool : Bool
deriving DecidableEq

/-- A brick color: either an index into the save palette or a direct
channel list. -/
inductive BrickColor where
  | palette (i : Nat)
  | rgb (c : List ℚ)
deriving DecidableEq

/-- The record ("brick") fields the filters and transforms touch. -/
structure Brick where
  position : List ℚ
  size : List ℚ
  owner_index : Nat
  asset_name_index : Nat
  material_index : Nat
  material_intensity : ℚ
  visibility : Bool
  color : BrickColor
  collision : Collision
deriving DecidableEq

/-- The save slice (`BrsV10` fields used by the core). -/
structure Save where
  bricks : List Brick
  brick_assets : List String
  brick_owners : List Owner
  materials : List String
  colors : List (List ℚ)
deriving DecidableEq

/-- Selection bounds; the core reads only the center. -/
structure Bounds where
  center : List ℚ
deriving DecidableEq

/-- `PlayerTransform` of src/interpret/index.ts; the core uses the yaw. -/
structure PlayerTransform where
  x : ℚ
  y : ℚ
  z : ℚ
  pitch : ℚ
  yaw : ℚ
  roll : ℚ
deriving DecidableEq

/-- The external `OMEGGA_UTIL.brick` helpers and constants the catalog
calls; they live in the host package, outside this repository, so they are
parameters of the context. -/
structure Util where
  getBrickSize : Brick → List String → List ℚ
  getScaleAxis : Brick → Nat → Nat
  getBounds : Save → Bounds
  defaultMaterials : List String

/-- `Context` of src/interpret/index.ts (the compiled filter/transform
lists are returned functionally instead of being fields). -/
structure Ctx where
  save : Save
  saveBounds : Option Bounds
  playerColor : List ℚ
  playerTransform : PlayerTransform
  util : Util

/-- `colorsEqual` of src/interpret/index.ts: the first three channels. -/
def colorsEqual (a b : List ℚ) : Bool :=
  (List.range 3).all (fun i => a.get? i = b.get? i)

/-- `getContextBounds`: memoized bounds lookup (returns the possibly
updated context). -/
def getContextBounds (ctx : Ctx) : Bounds × Ctx :=
  match ctx.saveBounds with
  | some b => (b, ctx)
  | none =>
    let b := ctx.util.getBounds ctx.save
    (b, { ctx with saveBounds := some b })

/-! ## Unit conversion (`numberUnits`, `convertNumberValueUnits`) -/

/-- `numberUnits` of src/interpret/index.ts: rewrite a number carrying a
unit suffix into base units; `none` covers the JS `undefined`/`null`
switch cases. -/
def numberUnits (n : ℚ) (units : Option String) : Except String ℚ :=
  match units with
  | none => .ok n
  | some u =>
    if u = "bricks" || u = "brick" || u = "br" || u = "b" then .ok (qMul n 12)
    else if u = "studs" || u = "stud" || u = "st" || u = "s" then .ok (qMul n 10)
    else if u = "plates" || u = "plate" || u = "pl" then .ok (qMul n 4)
    else if u = "micros" || u = "micro" || u = "m" then .ok (qMul n 2)
    else if u = "" then .ok n
    else .error "unknown_units"

/-- `convertNumberValueUnits` of src/interpret/index.ts. A range bound is
converted only when both the bound and its units are JS-truthy (a zero
bound or an empty/absent suffix is left alone), and the resulting
number/range drops its unit fields, as in the source. -/
def convertNumberValueUnits (value : Value) : Except String Value :=
  match value with
  | .number n units =>
    match numberUnits n units with
    | .error e => .error e
    | .ok n2 => .ok (.number n2 none)
  | .range mn mx _mnu _mxu mne mxe =>
    let convBound : Option ℚ → Option String → Except String (Option ℚ) :=
      fun bound units =>
        match bound, units with
        | some b, some u =>
          if b ≠ 0 ∧ u ≠ "" then
            match numberUnits b (some u) with
            | .error e => .error e
            | .ok b2 => .ok (some b2)
          else .ok (some b)
        | _, _ => .ok bound
    match convBound mx _mxu with
    | .error e => .error e
    | .ok mx2 =>
      match convBound mn _mnu with
      | .error e => .error e
      | .ok mn2 => .ok (.range mn2 mx2 none none mne mxe)
  | v => .ok v

/-! ## Numeric tests (`testNumber`) -/

/-- The compiled range predicate of `testNumber`: the value fails when it
is at or beyond a present bound and either the bound is exclusive or the
value is not exactly the bound. -/
def rangeTest (mn mx : Option ℚ) (mnEx mxEx : Option Bool) (x : ℚ) : Bool :=
  let maxFail : Bool :=
    match mx with
    | some m => decide (x ≥ m) && (mxEx.getD false || decide (x ≠ m))
    | none => false
  let minFail : Bool :=
    match mn with
    | some m => decide (x ≤ m) && (mnEx.getD false || decide (x ≠ m))
    | none => false
  if maxFail then false
  else if minFail then false
  else true

/-- `testNumber` of src/interpret/index.ts: compile a number or range value
into a predicate over one number. -/
def testNumber (against : Value) : Except String (ℚ → Bool) :=
  match against with
  | .number v _ => .ok (fun value => decide (value = v))
  | .range mn mx _ _ mnEx mxEx => .ok (rangeTest mn mx mnEx mxEx)
  | _ => .error "bad_number_or_range"

/-! ## Axis resolution (`getYawAxis`, `getAxis`) -/

/-- Truncation toward zero, as the JS remainder computation does
(`-Rat.floor (-q)` is the ceiling, written this way to stay
kernel-computable). -/
def truncQ (q : ℚ) : ℤ := if 0 ≤ q then Rat.floor q else -Rat.floor (-q)

/-- The JS `%` remainder: same sign as the dividend. -/
def jsRem (a b : ℚ) : ℚ := qSub a (qMul b (truncQ (qDiv a b) : ℤ))

/-- `YAW_AXES` of src/interpret/index.ts. -/
def YAW_AXES : List (Nat × ℚ) := [(0, -1), (1, -1), (0, 1), (1, 1)]

/-- `getYawAxis`: bucket the yaw into a quadrant and index the table. A
negative index (possible because the JS remainder keeps the dividend's
sign) falls outside the array and yields no pair, as the JS `undefined`. -/
def getYawAxis (yaw : ℚ) : Option (Nat × ℚ) :=
  let i : ℤ := Rat.floor (qDiv (jsRem (qAdd yaw 225) 360) 90)
  if 0 ≤ i then YAW_AXES.get? i.toNat else none

/-- `getAxis` of src/interpret/index.ts. `ok none` is the JS `undefined`
slipping out of `getYawAxis`; `error` is the thrown `unknown_axis`. -/
def getAxis (ctx : Ctx) (name : String) : Except String (Option (Nat × ℚ)) :=
  match strToLower name with
  | "x" => .ok (some (0, 1))
  | "y" => .ok (some (1, 1))
  | "z" => .ok (some (2, 1))
  | "top" | "up" | "u" => .ok (some (2, 1))
  | "bottom" | "down" | "d" => .ok (some (2, -1))
  | "forward" | "front" | "f" => .ok (getYawAxis ctx.playerTransform.yaw)
  | "backward" | "back" | "b" => .ok (getYawAxis (qAdd ctx.playerTransform.yaw 180))
  | "left" | "l" => .ok (getYawAxis (qAdd ctx.playerTransform.yaw 270))
  | "right" | "r" => .ok (getYawAxis (qAdd ctx.playerTransform.yaw 90))
  | _ => .error "unknown_axis"

/-! ## Catalog helpers -/

/-- JS `Math.round` (half toward positive infinity). -/
def jsRound (q : ℚ) : ℤ := Rat.floor (qAdd q (mkRat 1 2))

/-- JS `Array.prototype.indexOf` with `-1` mapped to `none`. -/
def listIndexOf : List String → String → Option Nat
  | [], _ => none
  | a :: t, s => if a = s then some 0 else (listIndexOf t s).map (· + 1)

/-- Update one entry of a numeric array (an out-of-range index leaves the
list unchanged; the catalog only indexes the three live axes). -/
def listUpd (l : List ℚ) (i : Nat) (f : ℚ → ℚ) : List ℚ :=
  l.set i (f (l.getD i 0))

/-- The material-name construction of the material filter/transform:
`'BMC_' + value.split(' ').map(capitalize)`. The JS `+` stringifies the
array with comma separators (there is no `.join('')` in the source), and
capitalizing an empty word would throw in JS; it is left empty here. -/
def capitalizeWord (s : String) : String :=
  match s.data with
  | [] => ""
  | c :: t => String.mk (c.toUpper :: t.map Char.toLower)

/-- JS `split(' ')` (splits at every single space, keeping empty pieces). -/
def splitCharsOnSpace : List Char → List (List Char)
  | [] => [[]]
  | c :: t =>
    let r := splitCharsOnSpace t
    if c = ' ' then [] :: r
    else
      match r with
      | h :: t2 => (c :: h) :: t2
      | [] => [[c]]

def splitOnSpace (s : String) : List String :=
  (splitCharsOnSpace s.data).map String.mk

def toMatName (s : String) : String :=
  "BMC_" ++ String.intercalate "," ((splitOnSpace s).map capitalizeWord)

/-- A partially specified collision descriptor (the JS `Partial<Collision>`). -/
structure PartialCollision where
  player : Option Bool
  weapon : Option Bool
  interaction : Option Bool
  tool : Option Bool
deriving DecidableEq

/-- The JS spread `{...brick.collision, ...collision}`. -/
def mergeCollision (c : Collision) (p : PartialCollision) : Collision :=
  ⟨p.player.getD c.player, p.weapon.getD c.weapon,
   p.interaction.getD c.interaction, p.tool.getD c.tool⟩

/-- Resolve a brick color reference to its channel list
(`toCol` inside the color comparator). -/
def toColor (ctx : Ctx) : BrickColor → List ℚ
  | .palette i => ctx.save.colors.getD i []
  | .rgb c => c

/-- The shared value closure of the `visibility` filter/transform pair. -/
def visibilityValue (args : List Value) : Bool :=
  match args.head? with
  | some (.boolean b) => b
  | _ => true

/-- The shared value closure of the `color` filter/transform pair. -/
def colorValue (ctx : Ctx) (args : List Value) : Except String (Brick → List ℚ) :=
  let isPicker : Bool :=
    match args.head? with
    | some (.string s) => s = "picker"
    | _ => false
  if args.isEmpty || isPicker then .ok (fun _ => ctx.playerColor)
  else
    match args with
    | [.number v _] => .ok (fun _ => [v, v, v])
    | [.number a _, .number b _, .number c _] => .ok (fun _ => [a, b, c])
    | _ => .error "no_color"

/-- The flag-collection loop of the `collision` value closure. -/
def collisionFold : List Value → PartialCollision → Except String PartialCollision
  | [], acc => .ok acc
  | arg :: rest, acc =>
    let key : Option String :=
      match arg with
      | .string s => some s
      | .boolean b => some (if b then "true" else "false")
      | _ => none
    match key with
    | none => .error "bad_flag"
    | some k =>
      let acc2 :=
        if k = "true" then (⟨some true, some true, some true, some true⟩ : PartialCollision)
        else if k = "false" then ⟨some false, some false, some false, some true⟩
        else if k = "player" ∨ k = "p" then { acc with player := some true }
        else if k = "weapon" ∨ k = "w" then { acc with weapon := some true }
        else if k = "interaction" ∨ k = "i" then { acc with interaction := some true }
        else acc
      collisionFold rest acc2

/-- The shared value closure of the `collision` filter/transform pair. -/
def collisionValue (args : List Value) : Except String (Brick → Collision) :=
  if args.isEmpty then .ok (fun _ => ⟨true, true, true, true⟩)
  else
    match collisionFold args ⟨none, none, none, none⟩ with
    | .error e => .error e
    | .ok p => .ok (fun b => mergeCollision b.collision p)

/-! ## The function registry

The registry entries of the catalog module, keyed exactly as the two
`Map.set` loops over the alias lists register them. The maps hold shared
implementation objects; here a name tag stands for the shared object and
`applyFilter`/`applyTransform` dispatch on it. -/

inductive FilterName where
  | not | or | and | position | centerposition | size | owner | type
  | materialintensity | material | visibility | invisible | color
  | collision | decollide
deriving DecidableEq

inductive TransformName where
  | delete | materialintensity | translate | localresize | resizeto
  | resize | material | visibility | invisible | color | collision
  | decollide
deriving DecidableEq

/-- Filter aliases in registration order (`filterMap`). -/
def filterRegistrations : List (String × FilterName) :=
  [("not", .not), ("or", .or), ("and", .and),
   ("position", .position), ("pos", .position), ("p", .position),
   ("centerposition", .centerposition), ("centerpos", .centerposition), ("cp", .centerposition),
   ("size", .size), ("scale", .size), ("s", .size),
   ("owner", .owner),
   ("type", .type), ("brick", .type), ("asset", .type),
   ("materialintensity", .materialintensity), ("intensity", .materialintensity), ("int", .materialintensity),
   ("material", .material), ("mat", .material),
   ("visibility", .visibility), ("visible", .visibility), ("vis", .visibility), ("show", .visibility),
   ("invisible", .invisible), ("invis", .invisible), ("hide", .invisible), ("hidden", .invisible),
   ("color", .color), ("colour", .color), ("col", .color),
   ("collision", .collision), ("collide", .collision),
   ("decollide", .decollide), ("uncollide", .decollide), ("nocollide", .decollide)]

/-- Transform aliases in registration order (`transformMap`). -/
def transformRegistrations : List (String × TransformName) :=
  [("delete", .delete), ("remove", .delete), ("omit", .delete),
   ("materialintensity", .materialintensity), ("intensity", .materialintensity), ("int", .materialintensity),
   ("translate", .translate), ("t", .translate),
   ("localresize", .localresize), ("lr", .localresize),
   ("rt", .resizeto), ("r2", .resizeto), ("rto", .resizeto), ("arto", .resizeto), ("absrto", .resizeto), ("resizeto", .resizeto),
   ("r", .resize), ("ar", .resize), ("absr", .resize), ("resize", .resize),
   ("material", .material), ("mat", .material),
   ("visibility", .visibility), ("visible", .visibility), ("vis", .visibility), ("show", .visibility),
   ("invisible", .invisible), ("invis", .invisible), ("hide", .invisible), ("hidden", .invisible),
   ("color", .color), ("colour", .color), ("col", .color),
   ("collision", .collision), ("collide", .collision),
   ("decollide", .decollide), ("uncollide", .decollide), ("nocollide", .decollide)]

/-- `filterMap.get` (exact key match, as JS `Map.get`). -/
def filterMapGet (s : String) : Option FilterName :=
  filterRegistrations.lookup s

/-- `transformMap.get` (exact key match). -/
def transformMapGet (s : String) : Option TransformName :=
  transformRegistrations.lookup s

/-! ## Transform compilation -/

/-- A compiled mutator: the new brick, plus `true` when the source closure
returned the literal `false` (the removal signal). -/
abbrev Mut := Brick → Brick × Bool

/-- `getAxis` as the catalog uses it: destructuring the JS `undefined`
that `getYawAxis` can produce would throw a `TypeError`, modelled as an
error distinct from the structured `unknown_axis`. -/
def getAxisPair (ctx : Ctx) (name : String) : Except String (Nat × ℚ) :=
  match getAxis ctx name with
  | .error e => .error e
  | .ok (some p) => .ok p
  | .ok none => .error "TypeError: cannot destructure undefined"

/-- `(convertNumberValueUnits(arg) as ValueNumber).value` on a number
argument. -/
def convertNumberArg (n : ℚ) (u : Option String) : Except String ℚ :=
  match convertNumberValueUnits (.number n u) with
  | .ok (.number n2 _) => .ok n2
  | .error e => .error e
  | .ok _ => .error "bad_value_type"

/-- The optional trailing `center` argument of the resize transforms:
`none` is the JS `undefined` dir, otherwise the `'min'` starting dir. -/
def resizeDir (args : List Value) : Option String :=
  match args.get? 2 with
  | some (.string s) => if s = "center" then none else some "min"
  | _ => some "min"

/-- `dir = dir === 'min' ? 'max' : 'min'` guarded by `if (dir)`. -/
def flipDir : Option String → Option String
  | some d => some (if d = "min" then "max" else "min")
  | none => none

/-- The intensity-argument validation shared by the material
filter/transform (`args[1]` absent, or a number within 0..10). -/
def materialIntensityArg (args : List Value) : Except String (Option ℚ) :=
  match args.get? 1 with
  | none => .ok none
  | some (.number v _) => if v < 0 ∨ v > 10 then .error "bad_intensity" else .ok (some v)
  | some _ => .error "bad_intensity"

/-- Compile one registered transform: the per-record mutator, the
(possibly mutated) argument list, and the (possibly mutated) context. -/
def applyTransform (ctx : Ctx) (t : TransformName) (args : List Value) :
    Except String (Mut × List Value × Ctx) :=
  match t with
  | .delete => .ok ((fun b => (b, true)), args, ctx)
  | .materialintensity =>
    match args with
    | .number v _ :: _ =>
      if v < 0 ∨ v > 10 then .error "bad_intensity"
      else .ok ((fun b => ({ b with material_intensity := v }, false)), args, ctx)
    | _ => .error "expected_intensity"
  | .translate =>
    match args with
    | .string s :: .number n u :: _ =>
      match getAxisPair ctx s with
      | .error e => .error e
      | .ok (axis, factor) =>
        match convertNumberArg n u with
        | .error e => .error e
        | .ok n2 =>
          let value := qMul n2 factor
          .ok ((fun b => ({ b with position := listUpd b.position axis (qAdd · value) }, false)),
            args, ctx)
    | _ => .error "expected_axis_and_number"
  | .localresize =>
    match args with
    | .string s :: .number n u :: _ =>
      match getAxisPair ctx s with
      | .error e => .error e
      | .ok (axis, factor) =>
        match convertNumberArg n u with
        | .error e => .error e
        | .ok n2 =>
          let value := qMul n2 factor
          let dir := resizeDir args
          let (value, dir) := if value < 0 then (-value, flipDir dir) else (value, dir)
          let half : ℚ := (jsRound (qDiv value 2) : ℤ)
          match dir with
          | some d =>
            .ok ((fun b =>
              let old := b.size.getD axis 0
              let b1 := { b with size := b.size.set axis half }
              let pidx := ctx.util.getScaleAxis b1 axis
              let delta := if d = "min" then qSub half old else qSub old half
              ({ b1 with position := listUpd b1.position pidx (qAdd · delta) },
               false)), args, ctx)
          | none =>
            .ok ((fun b => ({ b with size := b.size.set axis half }, false)), args, ctx)
    | _ => .error "expected_number"
  | .resizeto =>
    match args with
    | .string s :: .number n u :: _ =>
      match getAxisPair ctx s with
      | .error e => .error e
      | .ok (axis, factor) =>
        match convertNumberArg n u with
        | .error e => .error e
        | .ok n2 =>
          let value := qMul n2 factor
          let dir := resizeDir args
          let (value, dir) := if value < 0 then (-value, flipDir dir) else (value, dir)
          let half : ℚ := (jsRound (qDiv value 2) : ℤ)
          match dir with
          | some d =>
            .ok ((fun b =>
              let sidx := ctx.util.getScaleAxis b axis
              let old := b.size.getD sidx 0
              let b1 := { b with size := b.size.set sidx half }
              let delta := if d = "min" then qSub half old else qSub old half
              ({ b1 with position := listUpd b1.position axis (qAdd · delta) },
               false)), args, ctx)
          | none =>
            .ok ((fun b => ({ b with size := b.size.set axis half }, false)), args, ctx)
    | _ => .error "expected_number"
  | .resize =>
    match args with
    | .string s :: .number n u :: _ =>
      match getAxisPair ctx s with
      | .error e => .error e
      | .ok (axis, factor) =>
        match convertNumberArg n u with
        | .error e => .error e
        | .ok value =>
          let dir := resizeDir args
          let dir := if factor < 0 then flipDir dir else dir
          let half : ℚ := (jsRound (qDiv value 2) : ℤ)
          match dir with
          | some d =>
            .ok ((fun b =>
              let sidx := ctx.util.getScaleAxis b axis
              let b1 := { b with size := listUpd b.size sidx (qAdd · half) }
              if b1.size.getD sidx 0 ≤ 0 then (b1, true)
              else
                let pos2 := listUpd b1.position axis (qAdd · (if d = "min" then half else -half))
                ({ b1 with position := pos2 }, false)),
              args, ctx)
          | none =>
            .ok ((fun b =>
              let b1 := { b with size := listUpd b.size axis (qAdd · half) }
              if b1.size.getD axis 0 ≤ 0 then (b1, true) else (b1, false)), args, ctx)
    | _ => .error "expected_number"
  | .material =>
    match args with
    | .string s :: _ =>
      match materialIntensityArg args with
      | .error e => .error e
      | .ok intensity =>
        let matName := toMatName s
        if matName ∈ ctx.util.defaultMaterials then
          let (index, ctx2) :=
            match listIndexOf ctx.save.materials matName with
            | some i => (i, ctx)
            | none =>
              (ctx.save.materials.length,
               { ctx with save := { ctx.save with materials := ctx.save.materials ++ [matName] } })
          .ok ((fun b =>
            let mi := match intensity with
              | some v => v
              | none => b.material_intensity
            ({ b with material_index := index, material_intensity := mi }, false)),
            args, ctx2)
        else .error "unknown_material"
    | _ => .error "expected_material"
  | .visibility =>
    let v := visibilityValue args
    .ok ((fun b => ({ b with visibility := v }, false)), args, ctx)
  | .invisible =>
    .ok ((fun b => ({ b with visibility := false }, false)), args, ctx)
  | .color =>
    match colorValue ctx args with
    | .error e => .error e
    | .ok target => .ok ((fun b => ({ b with color := .rgb (target b) }, false)), args, ctx)
  | .collision =>
    match collisionValue args with
    | .error e => .error e
    | .ok cv => .ok ((fun b => ({ b with collision := cv b }, false)), args, ctx)
  | .decollide =>
    .ok ((fun b => ({ b with collision := ⟨false, false, false, true⟩ }, false)), args, ctx)

/-! ## Filter compilation -/

/-- A nested function reference argument of `not`/`or`/`and`: an explicit
call or a bare name. -/
def nestedRef (v : Value) : Option (String × List Value) :=
  match v with
  | .func n as => some (n, as)
  | .string s => some (s, [])
  | _ => none

/-- The shared preamble of the `position`/`centerposition`/`size` filters:
argument checks, axis resolution, the in-place scaling of the numeric
argument by the axis sign (a JS-falsy zero bound is skipped), unit
conversion and the numeric test. Returns the axis, the compiled test and
the mutated argument list. -/
def axisNumberPre (ctx : Ctx) (args : List Value) :
    Except String (Nat × (ℚ → Bool) × List Value) :=
  match args with
  | .string s :: a1 :: rest =>
    match getAxisPair ctx s with
    | .error e => .error e
    | .ok (axis, factor) =>
      let a1' := match a1 with
        | .number v u => Value.number (qMul v factor) u
        | .range mn mx mnu mxu mne mxe =>
          let mn' := mn.map (fun m => if m ≠ 0 then qMul m factor else m)
          let mx' := mx.map (fun m => if m ≠ 0 then qMul m factor else m)
          Value.range mn' mx' mnu mxu mne mxe
        | other => other
      match convertNumberValueUnits a1' with
      | .error e => .error e
      | .ok conv =>
        match testNumber conv with
        | .error e => .error e
        | .ok test => .ok (axis, test, Value.string s :: a1' :: rest)
  | _ => .error "expected_axis_and_number"

mutual

/-- Compile one registered filter into a per-record predicate, also
returning the (possibly mutated) argument list and context. Dispatch on
the registry tag mirrors the shared `Filter` objects held by the map. -/
def applyFilter : Nat → FilterName → Ctx → List Value →
    Except String ((Brick → Bool) × List Value × Ctx)
  | 0, _, _, _ => .error "out of fuel"
  | fuel + 1, f, ctx, args =>
    match f with
    | .not =>
      match args.head? with
      | none => .error "expected_fn"
      | some a =>
        match nestedRef a with
        | none => .error "expected_fn"
        | some (fnname, fnargs) =>
          -- NOTE: the nested lookup does not lowercase the name
          match filterMapGet fnname with
          | none => .error "unknown_filter"
          | some ftag =>
            match applyFilter fuel ftag ctx fnargs with
            | .error e => .error e
            | .ok (p, fnargs2, ctx2) =>
              let args2 := match args with
                | .func n _ :: rest => Value.func n fnargs2 :: rest
                | _ => args
              .ok ((fun b => !(p b)), args2, ctx2)
    | .or =>
      if args.isEmpty then .error "expected_fn"
      else
        match compileFilterList fuel ctx args with
        | .error e => .error e
        | .ok (ps, args2, ctx2) => .ok ((fun b => ps.any (· b)), args2, ctx2)
    | .and =>
      if args.isEmpty then .error "expected_fn"
      else
        match compileFilterList fuel ctx args with
        | .error e => .error e
        | .ok (ps, args2, ctx2) => .ok ((fun b => ps.all (· b)), args2, ctx2)
    | .position =>
      match axisNumberPre ctx args with
      | .error e => .error e
      | .ok (axis, test, args2) =>
        .ok ((fun b => test (b.position.getD axis 0)), args2, ctx)
    | .centerposition =>
      match axisNumberPre ctx args with
      | .error e => .error e
      | .ok (axis, test, args2) =>
        let (bounds, ctx2) := getContextBounds ctx
        let ref := bounds.center.getD axis 0
        .ok ((fun b => test (qSub (b.position.getD axis 0) ref)), args2, ctx2)
    | .size =>
      match axisNumberPre ctx args with
      | .error e => .error e
      | .ok (axis, test, args2) =>
        .ok ((fun b =>
          test (qMul ((ctx.util.getBrickSize b ctx.save.brick_assets).getD axis 0) 2)),
          args2, ctx)
    | .owner =>
      match args.head? with
      | none => .error "expected_owner"
      | some (.string value) =>
        let exact : Bool := match args.get? 1 with
          | some (.string s) => strToLower s = "exact"
          | _ => false
        if strToLower value = "public" then
          .ok ((fun b => decide (b.owner_index = 0)), args, ctx)
        else if exact then
          .ok ((fun b =>
            if b.owner_index = 0 then false
            else decide ((ctx.save.brick_owners.getD (b.owner_index - 1) ⟨""⟩).name = value)),
            args, ctx)
        else
          let valLower := strToLower value
          .ok ((fun b =>
            if b.owner_index = 0 then false
            else listContainsSeq
              (strToLower (ctx.save.brick_owners.getD (b.owner_index - 1) ⟨""⟩).name).data
              valLower.data), args, ctx)
      | some _ => .error "expected_name"
    | .type =>
      match args.head? with
      | none => .error "expected_type"
      | some (.string v) =>
        let value := strToLower v
        let idxs := (List.range ctx.save.brick_assets.length).filter
          (fun i => listContainsSeq (strToLower (ctx.save.brick_assets.getD i "")).data value.data)
        .ok ((fun b => idxs.contains b.asset_name_index), args, ctx)
      | some _ => .error "expected_type"
    | .materialintensity =>
      match args.head? with
      | none => .error "expected_intensity"
      | some a0 =>
        match a0 with
        | .number _ _ | .range _ _ _ _ _ _ =>
          match testNumber a0 with
          | .error e => .error e
          | .ok test => .ok ((fun b => test b.material_intensity), args, ctx)
        | _ => .error "expected_intensity"
    | .material =>
      match args with
      | .string s :: _ =>
        match materialIntensityArg args with
        | .error e => .error e
        | .ok intensity =>
          let matName := toMatName s
          if matName ∈ ctx.util.defaultMaterials then
            match listIndexOf ctx.save.materials matName with
            | none => .ok ((fun _ => false), args, ctx)
            | some index =>
              -- the filter applies the intensity only when it is JS-truthy
              match intensity with
              | some v =>
                if v ≠ 0 then
                  .ok ((fun b =>
                    decide (b.material_index = index) && decide (b.material_intensity = v)),
                    args, ctx)
                else .ok ((fun b => decide (b.material_index = index)), args, ctx)
              | none => .ok ((fun b => decide (b.material_index = index)), args, ctx)
          else .error "unknown_material"
      | _ => .error "expected_material"
    | .visibility =>
      let v := visibilityValue args
      .ok ((fun b => b.visibility = v), args, ctx)
    | .invisible =>
      .ok ((fun b => b.visibility = false), args, ctx)
    | .color =>
      match colorValue ctx args with
      | .error e => .error e
      | .ok target =>
        .ok ((fun b => colorsEqual (toColor ctx b.color) (target b)), args, ctx)
    | .collision =>
      match collisionValue args with
      | .error e => .error e
      | .ok cv => .ok ((fun b => decide (b.collision = cv b)), args, ctx)
    | .decollide =>
      .ok ((fun b => decide (b.collision = Collision.mk false false false true)), args, ctx)

/-- The nested-argument loop shared by `or` and `and`: resolve and compile
every referenced filter eagerly, threading the context and rebuilding the
argument list. -/
def compileFilterList : Nat → Ctx → List Value →
    Except String (List (Brick → Bool) × List Value × Ctx)
  | 0, _, _ => .error "out of fuel"
  | _ + 1, ctx, [] => .ok ([], [], ctx)
  | fuel + 1, ctx, a :: rest =>
    match nestedRef a with
    | none => .error "expected_fn"
    | some (fnname, fnargs) =>
      -- NOTE: the nested lookup does not lowercase the name
      match filterMapGet fnname with
      | none => .error "unknown_filter"
      | some ftag =>
        match applyFilter fuel ftag ctx fnargs with
        | .error e => .error e
        | .ok (p, fnargs2, ctx2) =>
          let a2 := match a with
            | .func n _ => Value.func n fnargs2
            | _ => a
          match compileFilterList fuel ctx2 rest with
          | .error e => .error e
          | .ok (ps, rest2, ctx3) => .ok (p :: ps, a2 :: rest2, ctx3)

end

/-! ## Interpreter core (src/interpret/index.ts, `Interpreter.interpret`) -/

/-- `InterpretResult` of src/interpret/index.ts. -/
structure InterpretResult where
  total : Nat
  filtered : Nat
deriving DecidableEq

/-- The Delete normalization performed at the start of `interpret`:
`Delete` becomes `Replace` with the single synthetic `delete` transform. -/
def normalizeDelete (pr : ParseResult) : ParseResult :=
  if pr.op = Op.Delete then
    { pr with op := Op.Replace, transforms := [⟨"delete", []⟩] }
  else pr

/-- The filter-resolution loop of `interpret`: look each name up with
`toLower`, compile, and thread the context. The context is returned even
on failure, as the JS objects keep any mutations made before the throw. -/
def compileFilters (fuel : Nat) : List Func → Ctx →
    Except String (List (Brick → Bool) × List Func) × Ctx
  | [], ctx => (.ok ([], []), ctx)
  | f :: rest, ctx =>
    match filterMapGet (strToLower f.name) with
    | none => (.error "unknown_filter", ctx)
    | some tag =>
      match applyFilter fuel tag ctx f.args with
      | .error e => (.error e, ctx)
      | .ok (p, args2, ctx2) =>
        match compileFilters fuel rest ctx2 with
        | (.error e, ctx3) => (.error e, ctx3)
        | (.ok (ps, fs2), ctx3) => (.ok (p :: ps, ⟨f.name, args2⟩ :: fs2), ctx3)

/-- The transform-resolution loop of `interpret`. -/
def compileTransforms : List Func → Ctx →
    Except String (List Mut × List Func) × Ctx
  | [], ctx => (.ok ([], []), ctx)
  | f :: rest, ctx =>
    match transformMapGet (strToLower f.name) with
    | none => (.error "unknown_transform", ctx)
    | some tag =>
      match applyTransform ctx tag f.args with
      | .error e => (.error e, ctx)
      | .ok (m, args2, ctx2) =>
        match compileTransforms rest ctx2 with
        | (.error e, ctx3) => (.error e, ctx3)
        | (.ok (ms, fs2), ctx3) => (.ok (m :: ms, ⟨f.name, args2⟩ :: fs2), ctx3)

/-- The inner transform loop over one record: apply in declaration order
and stop at the first removal signal. -/
def applyTransforms : List Mut → Brick → Brick × Bool
  | [], b => (b, false)
  | t :: ts, b =>
    let (b2, deleted) := t b
    if deleted then (b2, true) else applyTransforms ts b2

/-- The outcome of the single forward pass. -/
structure PassResult where
  bricks : List Brick
  extracted : List Brick
  filtered : Nat
  deleted : Nat

/-- The single forward pass of `interpret` over the record collection
(the `for` loop with in-place `splice` and a decremented index): each
record is visited exactly once, a record failing any filter is kept
untouched, a matching record is transformed, a removal signal deletes it
(decrementing the filtered count back), and under Extract a surviving
matching record moves to the extracted output. -/
def runPass (fs : List (Brick → Bool)) (ts : List Mut) (op : Op) :
    List Brick → PassResult
  | [] => ⟨[], [], 0, 0⟩
  | b :: rest =>
    if fs.all (· b) then
      let (b2, deleted) := applyTransforms ts b
      let r := runPass fs ts op rest
      if deleted then ⟨r.bricks, r.extracted, r.filtered, r.deleted + 1⟩
      else if op = Op.Extract then ⟨r.bricks, b2 :: r.extracted, r.filtered + 1, r.deleted⟩
      else ⟨b2 :: r.bricks, r.extracted, r.filtered + 1, r.deleted⟩
    else
      let r := runPass fs ts op rest
      ⟨b :: r.bricks, r.extracted, r.filtered, r.deleted⟩

/-- The interpreter core on an acquired context: Delete normalization,
filter and transform resolution (aborting the command on the first
unknown name or bad argument, but keeping context mutations), then the
single pass and the summary `{ total := remaining record count,
filtered }`. Also returns the final context and the deleted count. -/
def interpretCore (fuel : Nat) (pr : ParseResult) (ctx : Ctx) :
    Except String InterpretResult × Ctx × Nat :=
  let pr := normalizeDelete pr
  match compileFilters fuel pr.filters ctx with
  | (.error e, ctx2) => (.error e, ctx2, 0)
  | (.ok (fps, _), ctx2) =>
    match compileTransforms pr.transforms ctx2 with
    | (.error e, ctx3) => (.error e, ctx3, 0)
    | (.ok (tms, _), ctx3) =>
      let r := runPass fps tms pr.op ctx3.save.bricks
      let ctx4 := { ctx3 with save := { ctx3.save with bricks := r.bricks } }
      (.ok ⟨r.bricks.length, r.filtered⟩, ctx4, r.deleted)

/-! ## Concrete fixtures for the end-to-end claims -/

/-- A concrete instantiation of the external host utilities: the default
material table of the host constants, a size lookup reading the brick's
own size field, the identity scale-axis map, and an origin bound. Only
`defaultMaterials` is observed by the theorems below. -/
def util0 : Util where
  getBrickSize := fun b _ => b.size
  getScaleAxis := fun _ a => a
  getBounds := fun _ => ⟨[0, 0, 0]⟩
  defaultMaterials :=
    ["BMC_Ghost", "BMC_Ghost_Fail", "BMC_Plastic", "BMC_Glow", "BMC_Metallic", "BMC_Hologram"]

/-- A neutral brick at the origin. -/
def brick0 : Brick where
  position := [0, 0, 0]
  size := [1, 1, 1]
  owner_index := 0
  asset_name_index := 0
  material_index := 0
  material_intensity := 5
  visibility := true
  color := .rgb [0, 0, 0]
  collision := ⟨true, true, true, true⟩

/-- An empty save. -/
def save0 : Save where
  bricks := []
  brick_assets := []
  brick_owners := []
  materials := []
  colors := []

/-- A context over a given save, facing yaw 0. -/
def mkCtx (save : Save) : Ctx where
  save := save
  saveBounds := none
  playerColor := [255, 255, 255]
  playerTransform := ⟨0, 0, 0, 0, 0, 0⟩
  util := util0

/-- The two-record collection of the end-to-end delete scenario. -/
def c1Save : Save :=
  { save0 with bricks :=
      [{ brick0 with position := [1, 0, 0] }, { brick0 with position := [-1, 0, 0] }] }

/-- The fuel used for the concrete evaluations. -/
def F0 : Nat := 200

/-- Parsed form of the end-to-end delete scenario command
`position(x, >0) delete`. -/
def c1Parsed : ParseResult :=
  ⟨false, Op.Delete,
   [⟨"position", [.string "x", .range (some 0) none none none (some true) none]⟩], []⟩

/-- The compiled single `delete` transform (`() => () => false`). -/
def deleteMut : Mut := fun b => (b, true)

/-- The registered unit suffixes of `numberUnits`. -/
def unitSuffixes : List String :=
  ["bricks", "brick", "br", "b", "studs", "stud", "st", "s",
   "plates", "plate", "pl", "micros", "micro", "m"]

/-- Projection: the resolved `Func` list of a filter compilation phase. -/
def compiledFuncs (r : Except String (List (Brick → Bool) × List Func) × Ctx) :
    Option (List Func) :=
  match r.1 with
  | .ok (_, fs) => some fs
  | .error _ => none

/-- Projection: the argument list a single filter compilation leaves behind. -/
def filterArgsOf (r : Except String ((Brick → Bool) × List Value × Ctx)) :
    Option (List Value) :=
  match r with
  | .ok (_, a, _) => some a
  | .error _ => none

/-- Projection: the compiled predicate applied to one brick. -/
def filterPredAt (r : Except String ((Brick → Bool) × List Value × Ctx)) (b : Brick) :
    Option Bool :=
  match r with
  | .ok (p, _, _) => some (p b)
  | .error _ => none

/-- A brick sitting at `z = -5`. -/
def bneg5 : Brick := { brick0 with position := [0, 0, -5] }

/-! # Theorems

First the bridge lemmas tying the kernel-computable rational wrappers to
the library operators, then the claim theorems. -/

theorem qAdd_eq (a b : ℚ) : qAdd a b = a + b := by
  have ha : ((a.den : ℤ) : ℚ) ≠ 0 := by exact_mod_cast a.den_nz
  have hb : ((b.den : ℤ) : ℚ) ≠ 0 := by exact_mod_cast b.den_nz
  rw [qAdd, Rat.divInt_eq_div]
  push_cast
  conv_rhs => rw [← Rat.num_div_den a, ← Rat.num_div_den b]
  field_simp

theorem qMul_eq (a b : ℚ) : qMul a b = a * b := by
  rw [qMul, Rat.divInt_eq_div]
  push_cast
  conv_rhs => rw [← Rat.num_div_den a, ← Rat.num_div_den b]
  rw [div_mul_div_comm]

theorem qSub_eq (a b : ℚ) : qSub a b = a - b := by
  rw [qSub, qAdd_eq, sub_eq_add_neg]

theorem qDiv_eq (a b : ℚ) : qDiv a b = a / b := by
  rcases eq_or_ne b 0 with rfl | hb
  · show Rat.divInt (a.num * (1 : Nat)) (a.den * 0) = a / 0
    norm_num
  · have hbn : ((b.num : ℤ) : ℚ) ≠ 0 := by exact_mod_cast Rat.num_ne_zero.mpr hb
    have ha : ((a.den : ℤ) : ℚ) ≠ 0 := by exact_mod_cast a.den_nz
    have hbd : ((b.den : ℤ) : ℚ) ≠ 0 := by exact_mod_cast b.den_nz
    rw [qDiv, Rat.divInt_eq_div]
    push_cast
    conv_rhs => rw [← Rat.num_div_den a, ← Rat.num_div_den b]
    field_simp

theorem qMkRat_eq (n : ℤ) (d : ℕ) : mkRat n d = (n : ℚ) / d := by
  rw [Rat.mkRat_eq_divInt, Rat.divInt_eq_div]
  norm_num

theorem ratFloor_eq (q : ℚ) : Rat.floor q = ⌊q⌋ := rfl

theorem truncQ_eq (q : ℚ) : truncQ q = if 0 ≤ q then ⌊q⌋ else ⌈q⌉ := by
  rw [truncQ]
  rcases le_or_lt 0 q with h | h
  · simp [h, ratFloor_eq]
  · simp [not_le.mpr h, ratFloor_eq, Int.floor_neg]

/-- C1, counterexample: the command `position(x, >0) delete` on the
two-record collection parses as claimed and deletes the matching record,
but the returned summary is `{total := 1, filtered := 0}` — `total` is the
size of the collection after the in-place `splice`, not the original
size 2 the claim states. -/
theorem c1_total_is_remaining_count :
    parseCommand "position(x, >0) delete" = .ok c1Parsed ∧
    (interpretCore F0 c1Parsed (mkCtx c1Save)).1 = .ok ⟨1, 0⟩ ∧
    (⟨1, 0⟩ : InterpretResult) ≠ ⟨2, 0⟩ :=
  ⟨rfl, rfl, by decide⟩

/-- C1, amended: `position(x, >0) delete` on
`[{pos := [1,0,0]}, {pos := [-1,0,0]}]` normalizes the Delete operation to
Replace with the single synthetic `delete` transform, leaves the remaining
collection `[{pos := [-1,0,0]}]`, deletes one record, and returns the
summary `{total := 1, filtered := 0}` (the total being the remaining
collection size). -/
theorem c1_delete_scenario :
    parseCommand "position(x, >0) delete" = .ok c1Parsed ∧
    normalizeDelete c1Parsed = ⟨false, Op.Replace, c1Parsed.filters, [⟨"delete", []⟩]⟩ ∧
    (interpretCore F0 c1Parsed (mkCtx c1Save)).1 = .ok ⟨1, 0⟩ ∧
    (interpretCore F0 c1Parsed (mkCtx c1Save)).2.2 = 1 ∧
    (interpretCore F0 c1Parsed (mkCtx c1Save)).2.1.save.bricks
      = [{ brick0 with position := [-1, 0, 0] }] :=
  ⟨rfl, rfl, rfl, by decide, by decide⟩

/-- C4, code evaluated at the failing input: inside a quoted string a
backslash terminates the scan (the `!escape` in the loop condition), the
escaped character is consumed as if it were the closing quote, and the
result drops it: parsing `"a\"b"` yields the string `a` with the cursor
after the escaped quote, instead of the intended `a"b` read through the
real closing quote. The unterminated-string half of the claim does hold:
the error column is the opening quote's position. -/
theorem c4_escape_truncates_string :
    readValueStr "\"a\\\"b\"" = .ok (.string "a", 4) ∧
    readValueStr "\"ab" = .error ⟨"\"ab".data, 0, "string never terminated"⟩ :=
  ⟨rfl, rfl⟩

/-- C3, counterexample: the registry keys are lowercase and the top-level
lookup lowercases the queried name, so `Position` resolves at top level;
but the nested lookup inside `not` (and `or`/`and`) passes the name
through unlowercased, so the same spelling fails there with
`unknown_filter` while the all-lowercase spelling compiles. -/
theorem c3_nested_lookup_case_sensitive :
    filterMapGet (strToLower "Position") = some FilterName.position ∧
    filterMapGet "Position" = none ∧
    applyFilter F0 .not (mkCtx save0) [.func "Position" [.string "x", .number 0 none]]
      = .error "unknown_filter" ∧
    (applyFilter F0 .not (mkCtx save0)
        [.func "position" [.string "x", .number 0 none]]).isOk = true :=
  ⟨rfl, rfl, rfl, rfl⟩

/-- C7, counterexample: `9` contains no operation keyword, yet parsing
fails (the first token is not an identifier), so the claim as stated —
that every command string without an operation keyword parses
successfully — is false. -/
theorem c7_no_op_can_still_fail :
    parseCommand "9"
      = .error ⟨"9".data, 0, "expected an identifier, starting with an alphabet character"⟩ :=
  rfl

/-- C8, counterexample: compiling the `position` filter multiplies its
numeric argument in place by the axis sign, so with axis `d` (factor −1)
the `Func` inside the `ParseResult` changes from `5` to `-5`, and
compiling the already-mutated arguments yields a different predicate:
the first compile's predicate accepts the brick at `z = -5`, the
recompile's predicate rejects it. -/
theorem c8_compile_mutates_parse_result :
    compiledFuncs
        (compileFilters F0 [⟨"position", [.string "d", .number 5 none]⟩] (mkCtx save0))
      = some [⟨"position", [.string "d", .number (-5) none]⟩] ∧
    Value.number (-5 : ℚ) none ≠ Value.number 5 none ∧
    filterPredAt (applyFilter F0 .position (mkCtx save0) [.string "d", .number 5 none]) bneg5
      = some true ∧
    filterPredAt (applyFilter F0 .position (mkCtx save0) [.string "d", .number (-5) none]) bneg5
      = some false :=
  ⟨rfl, by simp; norm_num, rfl, rfl⟩

/-- Counting invariant of the evaluation pass, any operation: the final
filtered count plus the deleted count is the number of records matching
all filters. -/
theorem runPass_counts (fs : List (Brick → Bool)) (ts : List Mut) (op : Op)
    (bricks : List Brick) :
    (runPass fs ts op bricks).filtered + (runPass fs ts op bricks).deleted
      = (bricks.filter (fun b => fs.all (· b))).length := by
  induction bricks with
  | nil => simp [runPass]
  | cons b rest ih =>
    rcases hr : runPass fs ts op rest with ⟨rb, re, rf, rd⟩
    rw [hr] at ih
    by_cases hf : fs.all (· b) = true
    · rw [runPass, if_pos hf, List.filter_cons, if_pos hf, hr]
      rcases hap : applyTransforms ts b with ⟨b2, del⟩
      simp only []
      cases del
      · by_cases hop : op = Op.Extract
        · rw [if_neg (by simp), if_pos hop]
          rw [List.length_cons, ← ih]
          exact Nat.add_right_comm rf 1 rd
        · rw [if_neg (by simp), if_neg hop]
          rw [List.length_cons, ← ih]
          exact Nat.add_right_comm rf 1 rd
      · rw [if_pos rfl]
        rw [List.length_cons, ← ih]
        exact (Nat.add_assoc rf rd 1).symm
    · rw [runPass, if_neg hf, List.filter_cons, if_neg hf, hr]
      exact ih

/-- Size invariant of the evaluation pass under Replace: remaining records
plus deleted records account for the whole collection. -/
theorem runPass_replace_len (fs : List (Brick → Bool)) (ts : List Mut)
    (bricks : List Brick) :
    (runPass fs ts Op.Replace bricks).bricks.length
      + (runPass fs ts Op.Replace bricks).deleted = bricks.length := by
  induction bricks with
  | nil => simp [runPass]
  | cons b rest ih =>
    rcases hr : runPass fs ts Op.Replace rest with ⟨rb, re, rf, rd⟩
    rw [hr] at ih
    by_cases hf : fs.all (· b) = true
    · rw [runPass, if_pos hf, hr]
      rcases hap : applyTransforms ts b with ⟨b2, del⟩
      simp only []
      cases del
      · rw [if_neg (by simp), if_neg (by simp)]
        rw [List.length_cons, List.length_cons, ← ih]
        exact Nat.add_right_comm rb.length 1 rd
      · rw [if_pos rfl]
        rw [List.length_cons, ← ih]
        exact (Nat.add_assoc rb.length rd 1).symm
    · rw [runPass, if_neg hf, hr]
      rw [List.length_cons, List.length_cons, ← ih]
      exact Nat.add_right_comm rb.length 1 rd

/-- C2: for a Replace command whose compiled transforms include the
`delete` mutator, after the evaluation pass `filtered + deleted` equals
the number of records matching all filters of the original collection,
and the remaining collection size is the original size minus the deleted
count. -/
theorem c2_delete_count_invariant (fs : List (Brick → Bool)) (ts : List Mut)
    (bricks : List Brick) (_hdel : deleteMut ∈ ts) :
    (runPass fs ts Op.Replace bricks).filtered + (runPass fs ts Op.Replace bricks).deleted
      = (bricks.filter (fun b => fs.all (· b))).length ∧
    (runPass fs ts Op.Replace bricks).bricks.length
      = bricks.length - (runPass fs ts Op.Replace bricks).deleted := by
  refine ⟨runPass_counts fs ts Op.Replace bricks, ?_⟩
  exact Nat.eq_sub_of_add_eq (runPass_replace_len fs ts bricks)

/-- C2, witness at a concrete input: one all-pass filter, the single
`delete` transform, a one-record collection. -/
theorem c2_delete_count_invariant_witness :
    deleteMut ∈ [deleteMut] ∧
    ((runPass [fun _ => true] [deleteMut] Op.Replace [brick0]).filtered
        + (runPass [fun _ => true] [deleteMut] Op.Replace [brick0]).deleted
      = ([brick0].filter (fun b => ([fun _ => true] : List (Brick → Bool)).all (· b))).length ∧
     (runPass [fun _ => true] [deleteMut] Op.Replace [brick0]).bricks.length
      = [brick0].length - (runPass [fun _ => true] [deleteMut] Op.Replace [brick0]).deleted) :=
  ⟨List.mem_singleton.mpr rfl,
   c2_delete_count_invariant _ _ _ (List.mem_singleton.mpr rfl)⟩

/-- Loop invariant of the filter-collection loop: when it finishes without
finding an operation keyword, the cursor is at end of input (the loop only
exits that way), justifying the defaulting branch of `parseAfterAll`. -/
theorem readFilters_none_eof : ∀ (fuel : Nat) (d : List Char) (col : Nat)
    (fs : List Func) (c : Nat),
    readFilters fuel d col = .ok (fs, none, c) → eofb d c = true := by
  intro fuel
  induction fuel with
  | zero =>
    intro d col fs c h
    simp [readFilters] at h
  | succ fuel ih =>
    intro d col fs c h
    rw [readFilters] at h
    by_cases he : eofb d col = true
    · rw [if_pos he] at h
      simp only [Except.ok.injEq, Prod.mk.injEq] at h
      obtain ⟨-, -, rfl⟩ := h
      exact he
    · rw [if_neg he] at h
      simp only [] at h
      rcases hw : (if wordAt d col = "" then none else getOp (wordAt d col)) with _ | op <;>
        rw [hw] at h <;> simp only [] at h
      · rcases hf : readFunction fuel false d col with e | ⟨fn, c1⟩ <;> rw [hf] at h <;>
          simp only [] at h
        · exact Except.noConfusion h
        · by_cases he1 : eofb d c1 = true
          · rw [if_pos he1] at h
            simp only [Except.ok.injEq, Prod.mk.injEq] at h
            obtain ⟨-, -, rfl⟩ := h
            exact he1
          · rw [if_neg he1] at h
            rcases ho : readOneWhitespace d c1 with e | c2 <;> rw [ho] at h <;>
              simp only [] at h
            · exact Except.noConfusion h
            · rcases hr : readFilters fuel d c2 with e | ⟨fs2, op2, c3⟩ <;> rw [hr] at h <;>
                simp only [] at h
              · exact Except.noConfusion h
              · simp only [Except.ok.injEq, Prod.mk.injEq] at h
                obtain ⟨-, hop, rfl⟩ := h
                subst hop
                exact ih d c2 fs2 _ hr
      · rcases hi : readIdentifier d col with e | ⟨id, c1⟩ <;> rw [hi] at h <;>
          simp only [] at h
        · exact Except.noConfusion h
        · by_cases he1 : eofb d c1 = true
          · rw [if_pos he1] at h
            simp at h
          · rw [if_neg he1] at h
            rcases ho : readOneWhitespace d c1 with e | c2 <;> rw [ho] at h <;>
              simp only [] at h
            · exact Except.noConfusion h
            · simp at h

/-- C7, amended: for every command string on which the filter-collection
loop completes without ever finding an operation keyword, parsing succeeds
with the collected functions reinterpreted as the transform list, an empty
filter list, and the operation defaulted to Replace (the cursor is then at
end of input, so the transform loop reads nothing). -/
theorem c7_no_op_keyword_defaults (fuel : Nat) (d : List Char) (all : Bool)
    (col : Nat) (fs : List Func) (c : Nat)
    (hall : allFlag d = .ok (all, col))
    (hfil : readFilters fuel d col = .ok (fs, none, c)) :
    parseFuel fuel d = .ok ⟨all, Op.Replace, [], fs⟩ ∧ eofb d c = true := by
  constructor
  · simp only [parseFuel, hall, parseAfterAll, hfil]
  · exact readFilters_none_eof fuel d col fs c hfil

/-- C7, witness: `invisible visible` has no operation keyword; both
functions become transforms and the operation defaults to Replace. -/
theorem c7_no_op_keyword_defaults_witness :
    allFlag ("invisible visible".data) = .ok (false, 0) ∧
    readFilters F0 ("invisible visible".data) 0
      = .ok ([⟨"invisible", []⟩, ⟨"visible", []⟩], none, 17) ∧
    parseFuel F0 ("invisible visible".data)
      = .ok ⟨false, Op.Replace, [], [⟨"invisible", []⟩, ⟨"visible", []⟩]⟩ :=
  ⟨rfl, rfl,
   (c7_no_op_keyword_defaults F0 ("invisible visible".data) false 0
     [⟨"invisible", []⟩, ⟨"visible", []⟩] 17 rfl rfl).1⟩

/-- An association-list lookup succeeds exactly on the registered keys. -/
theorem lookup_isSome_of_mem {β : Type} (l : List (String × β)) (a : String)
    (h : a ∈ l.map Prod.fst) : (l.lookup a).isSome = true := by
  induction l with
  | nil => simp at h
  | cons p t ih =>
    rw [List.map_cons, List.mem_cons] at h
    rcases h with h | h
    · simp [List.lookup, h]
    · rw [List.lookup]
      by_cases he : a == p.1
      · simp [he]
      · simp only [he, Bool.false_eq_true, ite_false]
        exact ih h

/-- C3, amended: every registered filter and transform alias is stored in
lowercase, and the top-level resolution lowercases the queried name — so
for any casing variant of a registered alias the top-level lookup succeeds
and yields the entry of the lowercase alias. (Nested references inside
`not`/`or`/`and` are exact-match and hence case-sensitive, as the
counterexample shows.) -/
theorem c3_top_level_lookups_case_insensitive :
    (∀ a ∈ filterRegistrations.map Prod.fst, strToLower a = a) ∧
    (∀ a ∈ transformRegistrations.map Prod.fst, strToLower a = a) ∧
    (∀ (v a : String), a ∈ filterRegistrations.map Prod.fst → strToLower v = a →
      filterMapGet (strToLower v) = filterMapGet a
        ∧ (filterMapGet (strToLower v)).isSome = true) ∧
    (∀ (v a : String), a ∈ transformRegistrations.map Prod.fst → strToLower v = a →
      transformMapGet (strToLower v) = transformMapGet a
        ∧ (transformMapGet (strToLower v)).isSome = true) := by
  refine ⟨by decide, by decide, ?_, ?_⟩
  · intro v a hmem hlow
    rw [hlow]
    exact ⟨rfl, lookup_isSome_of_mem _ a hmem⟩
  · intro v a hmem hlow
    rw [hlow]
    exact ⟨rfl, lookup_isSome_of_mem _ a hmem⟩

/-- C3, witness: the cased variant `POS` of the registered alias `pos`
resolves at top level to the `position` entry. -/
theorem c3_top_level_lookups_case_insensitive_witness :
    "pos" ∈ filterRegistrations.map Prod.fst ∧
    strToLower "POS" = "pos" ∧
    filterMapGet (strToLower "POS") = filterMapGet "pos" ∧
    (filterMapGet (strToLower "POS")).isSome = true :=
  ⟨by decide, by decide,
   (c3_top_level_lookups_case_insensitive.2.2.1 "POS" "pos" (by decide) (by decide)).1,
   (c3_top_level_lookups_case_insensitive.2.2.1 "POS" "pos" (by decide) (by decide)).2⟩

/-- C5: `>=5pl` parses to a range with `min = 5`, inclusive (minEx false)
and units `pl`, no max bound; unit conversion turns its min into 20; and
`numberUnits` multiplies by 12/10/4/2 for the brick/stud/plate/micro
suffix groups, is the identity for an absent or empty suffix, and fails
with `unknown_units` on any other suffix. -/
theorem c5_range_parse_and_unit_conversion :
    readValueStr ">=5pl" = .ok (.range (some 5) none (some "pl") none (some false) none, 5) ∧
    convertNumberValueUnits (.range (some 5) none (some "pl") none (some false) none)
      = .ok (.range (some 20) none none none (some false) none) ∧
    (∀ n : ℚ, ∀ u ∈ (["bricks", "brick", "br", "b"] : List String),
      numberUnits n (some u) = .ok (n * 12)) ∧
    (∀ n : ℚ, ∀ u ∈ (["studs", "stud", "st", "s"] : List String),
      numberUnits n (some u) = .ok (n * 10)) ∧
    (∀ n : ℚ, ∀ u ∈ (["plates", "plate", "pl"] : List String),
      numberUnits n (some u) = .ok (n * 4)) ∧
    (∀ n : ℚ, ∀ u ∈ (["micros", "micro", "m"] : List String),
      numberUnits n (some u) = .ok (n * 2)) ∧
    (∀ n : ℚ, numberUnits n none = .ok n ∧ numberUnits n (some "") = .ok n) ∧
    (∀ (n : ℚ) (u : String), u ∉ unitSuffixes → u ≠ "" →
      numberUnits n (some u) = .error "unknown_units") := by
  refine ⟨rfl, rfl, ?_, ?_, ?_, ?_, fun n => ⟨rfl, rfl⟩, ?_⟩
  · intro n u hu
    fin_cases hu <;> simp [numberUnits, qMul_eq]
  · intro n u hu
    fin_cases hu <;> simp [numberUnits, qMul_eq]
  · intro n u hu
    fin_cases hu <;> simp [numberUnits, qMul_eq]
  · intro n u hu
    fin_cases hu <;> simp [numberUnits, qMul_eq]
  · intro n u h1 h2
    simp only [numberUnits]
    split_ifs with h3 h4 h5 h6
    · simp only [Bool.or_eq_true, decide_eq_true_eq] at h3
      rcases h3 with ((rfl | rfl) | rfl) | rfl <;> exact absurd (by decide) h1
    · simp only [Bool.or_eq_true, decide_eq_true_eq] at h4
      rcases h4 with ((rfl | rfl) | rfl) | rfl <;> exact absurd (by decide) h1
    · simp only [Bool.or_eq_true, decide_eq_true_eq] at h5
      rcases h5 with (rfl | rfl) | rfl <;> exact absurd (by decide) h1
    · simp only [Bool.or_eq_true, decide_eq_true_eq] at h6
      rcases h6 with (rfl | rfl) | rfl <;> exact absurd (by decide) h1
    · rfl

/-- C5, witness: the plate suffix multiplies 5 into 20, and an unknown
suffix fails. -/
theorem c5_range_parse_and_unit_conversion_witness :
    ("pl" ∈ (["plates", "plate", "pl"] : List String)) ∧
    numberUnits 5 (some "pl") = .ok (5 * 4) ∧
    ("xyz" ∉ unitSuffixes) ∧ ("xyz" : String) ≠ "" ∧
    numberUnits 7 (some "xyz") = .error "unknown_units" :=
  ⟨by decide,
   c5_range_parse_and_unit_conversion.2.2.2.2.1 5 "pl" (by decide),
   by decide, by decide,
   c5_range_parse_and_unit_conversion.2.2.2.2.2.2.2 7 "xyz" (by decide) (by decide)⟩

/-- C8, amended: compiling an axis/number filter leaves the `ParseResult`
unchanged when the axis sign is +1 (the in-place multiplication writes the
same number back), but scales the numeric argument in place by −1 for a
negative-sign axis such as `d`, so recompiling the same `ParseResult` then
tests the negated number. Unit conversion never mutates the stored
argument: it builds a fresh value for the compiled test, and a
unit-suffixed number on a +1-sign axis keeps its value and suffix. -/
theorem c8_axis_sign_scales_numeric_arg (q : ℚ) :
    filterArgsOf (applyFilter F0 .position (mkCtx save0) [.string "x", .number q none])
      = some [.string "x", .number q none] ∧
    filterArgsOf (applyFilter F0 .position (mkCtx save0) [.string "d", .number q none])
      = some [.string "d", .number (-q) none] ∧
    filterArgsOf
        (applyFilter F0 .position (mkCtx save0) [.string "x", .number q (some "pl")])
      = some [.string "x", .number q (some "pl")] := by
  have hx : getAxisPair (mkCtx save0) "x" = .ok (0, 1) := rfl
  have hd : getAxisPair (mkCtx save0) "d" = .ok (2, -1) := rfl
  have hnu : ∀ r : ℚ, numberUnits r (some "pl") = .ok (qMul r 4) := fun r => by
    rw [numberUnits]
    rw [if_neg (by decide), if_neg (by decide), if_pos (by decide)]
  refine ⟨?_, ?_, ?_⟩
  · show filterArgsOf
      (applyFilter (199 + 1) .position (mkCtx save0) [.string "x", .number q none]) = _
    simp only [applyFilter, axisNumberPre, hx, convertNumberValueUnits, numberUnits,
      testNumber, filterArgsOf, qMul_eq, mul_one]
  · show filterArgsOf
      (applyFilter (199 + 1) .position (mkCtx save0) [.string "d", .number q none]) = _
    simp only [applyFilter, axisNumberPre, hd, convertNumberValueUnits, numberUnits,
      testNumber, filterArgsOf, qMul_eq, mul_neg_one]
  · show filterArgsOf
      (applyFilter (199 + 1) .position (mkCtx save0)
        [.string "x", .number q (some "pl")]) = _
    simp only [applyFilter, axisNumberPre, hx, convertNumberValueUnits, hnu,
      testNumber, filterArgsOf, qMul_eq, mul_one]

/-- C6: `testNumber` compiles a range into `rangeTest`, and the compiled
test fails a number exactly when the number is beyond a present bound and
not exactly equal to an inclusive bound: above the max, at an exclusive
max, below the min, or at an exclusive min; every other number passes. -/
theorem c6_range_test_boundaries (mn mx : Option ℚ) (mnu mxu : Option String) (mne mxe : Option Bool) (x : ℚ) :
    testNumber (.range mn mx mnu mxu mne mxe) = .ok (rangeTest mn mx mne mxe) ∧
    (rangeTest mn mx mne mxe x = false ↔
      (∃ m, mx = some m ∧ (m < x ∨ (x = m ∧ mxe.getD false = true))) ∨
      (∃ m, mn = some m ∧ (x < m ∨ (x = m ∧ mne.getD false = true)))) := by
  refine ⟨rfl, ?_⟩
  have hmax : ∀ (m : ℚ) (ex : Option Bool),
      (decide (x ≥ m) && (ex.getD false || decide (x ≠ m))) = true ↔
        (m < x ∨ (x = m ∧ ex.getD false = true)) := by
    intro m ex
    simp only [Bool.and_eq_true, Bool.or_eq_true, decide_eq_true_eq, ge_iff_le]
    constructor
    · rintro ⟨hge, hor⟩
      rcases eq_or_ne x m with rfl | hne
      · rcases hor with hex | hne2
        · exact Or.inr ⟨rfl, hex⟩
        · exact absurd rfl hne2
      · exact Or.inl (lt_of_le_of_ne hge (Ne.symm hne))
    · rintro (hlt | ⟨rfl, hex⟩)
      · exact ⟨le_of_lt hlt, Or.inr (ne_of_gt hlt)⟩
      · exact ⟨le_refl _, Or.inl hex⟩
  have hmin : ∀ (m : ℚ) (ex : Option Bool),
      (decide (x ≤ m) && (ex.getD false || decide (x ≠ m))) = true ↔
        (x < m ∨ (x = m ∧ ex.getD false = true)) := by
    intro m ex
    simp only [Bool.and_eq_true, Bool.or_eq_true, decide_eq_true_eq]
    constructor
    · rintro ⟨hle, hor⟩
      rcases eq_or_ne x m with rfl | hne
      · rcases hor with hex | hne2
        · exact Or.inr ⟨rfl, hex⟩
        · exact absurd rfl hne2
      · exact Or.inl (lt_of_le_of_ne hle hne)
    · rintro (hlt | ⟨rfl, hex⟩)
      · exact ⟨le_of_lt hlt, Or.inr (ne_of_lt hlt)⟩
      · exact ⟨le_refl _, Or.inl hex⟩
  rcases mx with _ | m <;> rcases mn with _ | m'
  · simp [rangeTest]
  · simp only [rangeTest]
    rw [show ((∃ mm, (none : Option ℚ) = some mm ∧ (mm < x ∨ (x = mm ∧ mxe.getD false = true)))
        ∨ (∃ mm, (some m' : Option ℚ) = some mm ∧ (x < mm ∨ (x = mm ∧ mne.getD false = true))))
      ↔ (x < m' ∨ (x = m' ∧ mne.getD false = true)) from by simp]
    rw [← hmin m' mne]
    rw [if_neg (by decide : ¬((false : Bool) = true))]
    by_cases hB : (decide (x ≤ m') && (mne.getD false || decide (x ≠ m'))) = true
    · rw [if_pos hB]
      exact iff_of_true rfl hB
    · rw [if_neg hB]
      exact iff_of_false (by simp) hB
  · simp only [rangeTest]
    rw [show ((∃ mm, (some m : Option ℚ) = some mm ∧ (mm < x ∨ (x = mm ∧ mxe.getD false = true)))
        ∨ (∃ mm, (none : Option ℚ) = some mm ∧ (x < mm ∨ (x = mm ∧ mne.getD false = true))))
      ↔ (m < x ∨ (x = m ∧ mxe.getD false = true)) from by simp]
    rw [← hmax m mxe]
    by_cases hB : (decide (x ≥ m) && (mxe.getD false || decide (x ≠ m))) = true
    · rw [if_pos hB]
      exact iff_of_true rfl hB
    · rw [if_neg hB, if_neg (by decide : ¬((false : Bool) = true))]
      exact iff_of_false (by simp) hB
  · simp only [rangeTest]
    rw [show ((∃ mm, (some m : Option ℚ) = some mm ∧ (mm < x ∨ (x = mm ∧ mxe.getD false = true)))
        ∨ (∃ mm, (some m' : Option ℚ) = some mm ∧ (x < mm ∨ (x = mm ∧ mne.getD false = true))))
      ↔ ((m < x ∨ (x = m ∧ mxe.getD false = true)) ∨ (x < m' ∨ (x = m' ∧ mne.getD false = true)))
      from by simp]
    rw [← hmax m mxe, ← hmin m' mne]
    by_cases hB1 : (decide (x ≥ m) && (mxe.getD false || decide (x ≠ m))) = true
    · rw [if_pos hB1]
      exact iff_of_true rfl (Or.inl hB1)
    · rw [if_neg hB1]
      by_cases hB2 : (decide (x ≤ m') && (mne.getD false || decide (x ≠ m'))) = true
      · rw [if_pos hB2]
        exact iff_of_true rfl (Or.inr hB2)
      · rw [if_neg hB2]
        exact iff_of_false (by simp) (fun h => h.elim hB1 hB2)


/-- The JS remainder, written with the library operators. -/
theorem jsRem_eq (a b : ℚ) : jsRem a b = a - b * (truncQ (a / b) : ℤ) := by
  rw [jsRem, qSub_eq, qMul_eq, qDiv_eq]

/-- A nonnegative JS remainder by 360 is below 360. -/
theorem jsRem_360_bounds (a : ℚ) (h : 0 ≤ jsRem a 360) : jsRem a 360 < 360 := by
  rw [jsRem_eq] at h ⊢
  rw [truncQ_eq] at h ⊢
  have hc : a / 360 * 360 = a := div_mul_cancel₀ a (by norm_num)
  by_cases hq : 0 ≤ a / 360
  · rw [if_pos hq] at h ⊢
    have h2 : a / 360 - ⌊a / 360⌋ < 1 := by
      have := Int.fract_lt_one (a / 360)
      rw [Int.fract] at this
      linarith
    nlinarith
  · rw [if_neg hq] at h ⊢
    have h1 : a / 360 ≤ ⌈a / 360⌉ := Int.le_ceil _
    nlinarith

/-- C9: viewer-relative axis resolution is partial: `getYawAxis` yields no
(axis, sign) pair exactly when the JS remainder `(yaw + 225) % 360` is
negative (the floor of its quotient by 90 is then a negative array index);
in particular yaw −300 yields none, and `getAxis` passes the undefined
result through for `forward`, and for the `+180`/`+270` offsets of
`backward`/`left`, instead of raising an `unknown_axis`-style error. -/
theorem c9_viewer_axis_resolution_gap :
    (∀ yaw : ℚ, getYawAxis yaw = none ↔ jsRem (qAdd yaw 225) 360 < 0) ∧
    getYawAxis (-300) = none ∧
    getAxis { mkCtx save0 with playerTransform := ⟨0, 0, 0, 0, -300, 0⟩ } "forward"
      = .ok none ∧
    getAxis { mkCtx save0 with playerTransform := ⟨0, 0, 0, 0, -420, 0⟩ } "backward"
      = .ok none ∧
    getAxis { mkCtx save0 with playerTransform := ⟨0, 0, 0, 0, -510, 0⟩ } "left"
      = .ok none := by
  refine ⟨?_, by decide, rfl, rfl, rfl⟩
  intro yaw
  rw [getYawAxis]
  have hfl : Rat.floor (qDiv (jsRem (qAdd yaw 225) 360) 90) = ⌊jsRem (qAdd yaw 225) 360 / 90⌋ := by
    rw [qDiv_eq, ratFloor_eq]
  rw [hfl]
  set m := jsRem (qAdd yaw 225) 360 with hm
  constructor
  · intro h
    by_contra hge
    push_neg at hge
    have h360 : m < 360 := jsRem_360_bounds _ hge
    have h1 : (0 : ℚ) ≤ m / 90 := div_nonneg hge (by norm_num)
    have h2 : (0 : ℤ) ≤ ⌊m / 90⌋ := Int.floor_nonneg.mpr h1
    rw [if_pos h2] at h
    have h3 : m / 90 < 4 := by
      rw [div_lt_iff₀ (by norm_num : (0:ℚ) < 90)]
      linarith
    have h4 : ⌊m / 90⌋ < 4 := Int.floor_lt.mpr (by exact_mod_cast h3)
    have h5 : ⌊m / 90⌋.toNat < 4 := by omega
    have h6 : ∀ k, k < 4 → (YAW_AXES.get? k).isSome = true := by decide
    have h7 := h6 _ h5
    rw [h] at h7
    simp at h7
  · intro hlt
    have h1 : m / 90 < 0 := div_neg_of_neg_of_pos hlt (by norm_num)
    have h2 : ⌊m / 90⌋ < 0 := Int.floor_lt.mpr (by exact_mod_cast h1)
    rw [if_neg (by omega)]

/-- `Array.indexOf` returns none when the item is absent. -/
theorem listIndexOf_eq_none_of_not_mem (l : List String) (s : String) (h : s ∉ l) :
    listIndexOf l s = none := by
  induction l with
  | nil => rfl
  | cons a t ih =>
    rw [List.mem_cons] at h
    push_neg at h
    rw [listIndexOf, if_neg (Ne.symm h.1), ih h.2]
    rfl

/-- A pass whose only filter rejects everything keeps the collection
unchanged and counts nothing, whatever the transforms are. -/
theorem runPass_never_match (ts : List Mut) (op : Op) (bricks : List Brick) :
    runPass [fun _ => false] ts op bricks = ⟨bricks, [], 0, 0⟩ := by
  induction bricks with
  | nil => rfl
  | cons b rest ih => rw [runPass, if_neg (by simp), ih]

/-- C10: compiling a `material glow` transform on a save whose material
table lacks "BMC_Glow" (a valid default material) succeeds and appends
"BMC_Glow" to the table at compile time: visibly so (a) under a plain
transform compile, (b) when a later transform in the same list fails to
compile (the command errors with unknown_transform, yet the table is
already mutated), (c) through the full interpreter for that failing
command (error returned and records untouched, materials appended), and
(d) through the full interpreter when no record matches the filters (the
`material hologram` filter rejects everything because "BMC_Hologram" is
absent from the table; the summary reports zero filtered and the records
are untouched, yet the materials table still gains "BMC_Glow"). -/
theorem c10_material_compile_mutates_table (F : Nat) (save : Save)
    (hglow : "BMC_Glow" ∉ save.materials) (hholo : "BMC_Hologram" ∉ save.materials) :
    ((compileTransforms [⟨"material", [.string "glow"]⟩] (mkCtx save)).1).isOk = true
  ∧ ((compileTransforms [⟨"material", [.string "glow"]⟩] (mkCtx save)).2).save.materials
      = save.materials ++ ["BMC_Glow"]
  ∧ (compileTransforms [⟨"material", [.string "glow"]⟩, ⟨"nosuchtransform", []⟩]
        (mkCtx save)).1 = .error "unknown_transform"
  ∧ ((compileTransforms [⟨"material", [.string "glow"]⟩, ⟨"nosuchtransform", []⟩]
        (mkCtx save)).2).save.materials = save.materials ++ ["BMC_Glow"]
  ∧ (interpretCore (F + 1)
        ⟨false, Op.Replace, [], [⟨"material", [.string "glow"]⟩, ⟨"nosuchtransform", []⟩]⟩
        (mkCtx save)).1 = .error "unknown_transform"
  ∧ ((interpretCore (F + 1)
        ⟨false, Op.Replace, [], [⟨"material", [.string "glow"]⟩, ⟨"nosuchtransform", []⟩]⟩
        (mkCtx save)).2.1).save.materials = save.materials ++ ["BMC_Glow"]
  ∧ ((interpretCore (F + 1)
        ⟨false, Op.Replace, [], [⟨"material", [.string "glow"]⟩, ⟨"nosuchtransform", []⟩]⟩
        (mkCtx save)).2.1).save.bricks = save.bricks
  ∧ (interpretCore (F + 1)
        ⟨false, Op.Replace, [⟨"material", [.string "hologram"]⟩],
         [⟨"material", [.string "glow"]⟩]⟩
        (mkCtx save)).1 = .ok ⟨save.bricks.length, 0⟩
  ∧ ((interpretCore (F + 1)
        ⟨false, Op.Replace, [⟨"material", [.string "hologram"]⟩],
         [⟨"material", [.string "glow"]⟩]⟩
        (mkCtx save)).2.1).save.bricks = save.bricks
  ∧ ((interpretCore (F + 1)
        ⟨false, Op.Replace, [⟨"material", [.string "hologram"]⟩],
         [⟨"material", [.string "glow"]⟩]⟩
        (mkCtx save)).2.1).save.materials = save.materials ++ ["BMC_Glow"] := by
  have hmap : transformMapGet (strToLower "material") = some TransformName.material := rfl
  have hnomap : transformMapGet (strToLower "nosuchtransform") = none := rfl
  have hfmap : filterMapGet (strToLower "material") = some FilterName.material := rfl
  have hig : materialIntensityArg [Value.string "glow"] = .ok none := rfl
  have hih : materialIntensityArg [Value.string "hologram"] = .ok none := rfl
  have hmatg : toMatName "glow" = "BMC_Glow" := rfl
  have hmath : toMatName "hologram" = "BMC_Hologram" := rfl
  have hidxg := listIndexOf_eq_none_of_not_mem save.materials "BMC_Glow" hglow
  have hidxh := listIndexOf_eq_none_of_not_mem save.materials "BMC_Hologram" hholo
  have hmemg : ("BMC_Glow" ∈ util0.defaultMaterials) := by decide
  have hmemh : ("BMC_Hologram" ∈ util0.defaultMaterials) := by decide
  refine ⟨?_, ?_, ?_, ?_, ?_, ?_, ?_, ?_, ?_, ?_⟩
  case _ =>
    simp only [compileTransforms, hmap, applyTransform, hig, hmatg, mkCtx, hidxg, hmemg,
      if_true]
    rfl
  case _ =>
    simp only [compileTransforms, hmap, applyTransform, hig, hmatg, mkCtx, hidxg, hmemg,
      if_true]
  case _ =>
    simp only [compileTransforms, hmap, hnomap, applyTransform, hig, hmatg, mkCtx, hidxg,
      hmemg, if_true]
  case _ =>
    simp only [compileTransforms, hmap, hnomap, applyTransform, hig, hmatg, mkCtx, hidxg,
      hmemg, if_true]
  case _ =>
    simp only [interpretCore, normalizeDelete, compileFilters, compileTransforms, hmap,
      hnomap, applyTransform, hig, hmatg, mkCtx, hidxg, hmemg, if_true]
  case _ =>
    simp only [interpretCore, normalizeDelete, compileFilters, compileTransforms, hmap,
      hnomap, applyTransform, hig, hmatg, mkCtx, hidxg, hmemg, if_true]
  case _ =>
    simp only [interpretCore, normalizeDelete, compileFilters, compileTransforms, hmap,
      hnomap, applyTransform, hig, hmatg, mkCtx, hidxg, hmemg, if_true]
  case _ =>
    simp only [interpretCore, normalizeDelete, compileFilters, compileTransforms, hmap,
      hfmap, applyFilter, applyTransform, hig, hih, hmatg, hmath, mkCtx, hidxg, hidxh,
      hmemg, hmemh, if_true, runPass_never_match]
  case _ =>
    simp only [interpretCore, normalizeDelete, compileFilters, compileTransforms, hmap,
      hfmap, applyFilter, applyTransform, hig, hih, hmatg, hmath, mkCtx, hidxg, hidxh,
      hmemg, hmemh, if_true, runPass_never_match]
  case _ =>
    simp only [interpretCore, normalizeDelete, compileFilters, compileTransforms, hmap,
      hfmap, applyFilter, applyTransform, hig, hih, hmatg, hmath, mkCtx, hidxg, hidxh,
      hmemg, hmemh, if_true, runPass_never_match]

/-- On the empty save the hypotheses of the compile-time mutation theorem
hold and the table-append conclusion follows at fuel 1. -/
theorem c10_material_compile_mutates_table_witness :
    ("BMC_Glow" ∉ save0.materials) ∧ ("BMC_Hologram" ∉ save0.materials)
  ∧ ((compileTransforms [⟨"material", [.string "glow"]⟩] (mkCtx save0)).2).save.materials
      = save0.materials ++ ["BMC_Glow"] :=
  ⟨by decide, by decide,
   (c10_material_compile_mutates_table 0 save0 (by decide) (by decide)).2.1⟩

end Select
